import Mathlib

/-!
# Verification of the CSV-aggregation pipeline (`src/tool/ExampleProgram.py`)

A shallow embedding of the CSV aggregator: `FileParser.parse_file_string`,
`FileValidator.validate_file_paths`, `CSVProcessor.read_and_concat_csvs`,
`FileWriter.save_dataframe` and `DataAggregator.process`.

Modelling choices, all taken from the source:

* The filesystem and the pandas reader are external to the program, so they
  are modelled as an oracle (`FS`): per path, the `os.path.exists` /
  `os.path.isfile` outcome (`PathStatus`, with a constructor for a check that
  raises, as a permission error would), the outcome of `pd.read_csv`
  (`ReadResult`: a dataset, `pd.errors.EmptyDataError`, or any other
  exception), and the outcome of `DataFrame.to_csv` (`FS.writeErr`).
* A pandas `DataFrame` is a `Dataset`: a header of column names and a list of
  rows of textual cells.  `pd.concat(dfs, ignore_index=True)` is
  `concatDatasets`: the column union in order of first appearance, each row
  reindexed to the union, columns absent from a row's own frame filled with
  the empty text cell (pandas' NaN as it serializes).
* Logging (`logging.info/warning/error`) is modelled by returning the list of
  emitted `LogEntry`s alongside each function's result, in emission order,
  with the messages the source formats.
* Python exceptions are modelled with `Except` where the source lets them
  escape (`FileWriter.save_dataframe` re-raises); functions whose source
  catches all per-item exceptions and continues are total Lean functions, so
  "never raises / never aborts" holds at the level of the model's types and
  the theorems characterize the returned values.
* The textual layer of `to_csv` / `read_csv` (for the round-trip property) is
  modelled by `renderCsv` / `read_csv_text`: comma-separated fields with
  standard CSV quoting (a field containing a comma, quote or newline is
  wrapped in quotes with inner quotes doubled), a header line then one line
  per row, each line terminated by a newline, no index column.  Re-typing of
  cells on read (pandas' type coercion of the text round-trip) is outside
  this textual layer.
-/

/-- Log levels of the Python `logging` module used by the program. -/
inductive LogLevel where
  | info
  | warning
  | error
deriving DecidableEq, Repr

/-- One emitted log record: level and formatted message. -/
structure LogEntry where
  level : LogLevel
  msg : String
deriving DecidableEq, Repr

/-- An in-memory table: named columns and ordered rows of textual cells
(the model of a pandas `DataFrame`). -/
structure Dataset where
  header : List String
  rows : List (List String)
deriving DecidableEq, Repr

/-- Outcome of `pd.read_csv` on one path: a dataset, the
`pd.errors.EmptyDataError` exception, or any other exception. -/
inductive ReadResult where
  | success (ds : Dataset)
  | emptyData
  | failure (e : String)
deriving DecidableEq, Repr

/-- Outcome of the `os.path.exists` / `os.path.isfile` checks on one path:
absent, present but not a regular file, a regular file, or the check itself
raises (e.g. a permission error). -/
inductive PathStatus where
  | absent
  | notFile
  | file
  | checkError (e : String)
deriving DecidableEq, Repr

/-- The external world the program runs against: per-path check outcome,
per-path read outcome, and the outcome of the final `to_csv` write
(`none` = success, `some e` = the exception raised). -/
structure FS where
  status : String → PathStatus
  read : String → ReadResult
  writeErr : Option String

/-- Python `str.startswith`: the argument is a prefix of the string. -/
def strStartsWith (s pre : String) : Bool :=
  pre.data.isPrefixOf s.data

/-- Python `str.endswith`: the argument is a suffix of the string. -/
def strEndsWith (s suf : String) : Bool :=
  suf.data.isSuffixOf s.data

/-- `os.path.join(a, b)` (POSIX): an absolute `b` discards `a`; otherwise
`b` is appended to `a` with a separator unless `a` is empty or already ends
with one. -/
def posixJoin (a b : String) : String :=
  if strStartsWith b "/" then b
  else if a = "" then b
  else if strEndsWith a "/" then a ++ b
  else a ++ "/" ++ b

/-- A character the tokenizer keeps: not a comma and not whitespace
(the regex `[^,\s]+` of `FileParser.parse_file_string`). -/
def isTokChar (c : Char) : Bool :=
  !(c = ',' || c.isWhitespace)

/-- The scan behind `re.findall(r'[^,\s]+', s)`: walk the characters
keeping the current run (reversed) in the accumulator; a separator closes
the run. -/
def findTokensAux : List Char → List Char → List (List Char)
  | [], acc => if acc.isEmpty then [] else [acc.reverse]
  | c :: rest, acc =>
    if isTokChar c then findTokensAux rest (c :: acc)
    else if acc.isEmpty then findTokensAux rest []
    else acc.reverse :: findTokensAux rest []

/-- `re.findall(r'[^,\s]+', s)` over the character list: the maximal runs of
token characters, in input order. -/
def findTokens (l : List Char) : List (List Char) :=
  findTokensAux l []

/-- Python `str.strip()`: drop leading and trailing whitespace. -/
def pyStrip (s : String) : String :=
  String.mk (((s.data.dropWhile Char.isWhitespace).reverse.dropWhile
    Char.isWhitespace).reverse)

/-- Python `str.lower()` (ASCII range, which covers the `.csv` suffix the
program compares against). -/
def pyLower (s : String) : String :=
  String.mk (s.data.map Char.toLower)

/-- `FileParser.parse_file_string`: extract the tokens of the file string
with `re.findall(r'[^,\s]+', ...)` and join each (stripped) token to the
base path with `os.path.join`. -/
def parse_file_string (file_string : String) (base_path : String) :
    List String :=
  (findTokens file_string.data).map
    (fun tok => posixJoin base_path (pyStrip (String.mk tok)))

/-- The conjunction of the three checks of
`FileValidator.validate_file_paths` on one path: the path exists, is a
regular file, and its lowercased form ends with `.csv`.  A path whose check
raises fails (it is dropped). -/
def passesChecks (fs : FS) (p : String) : Bool :=
  match fs.status p with
  | .file => strEndsWith (pyLower p) ".csv"
  | _ => false

/-- `FileValidator.validate_file_paths`: walk the paths in order; a path
failing a check is dropped with a warning naming the reason, a path whose
check raises is dropped with an error, a path passing all three checks is
appended.  Returns the emitted log and the kept paths. -/
def validate_file_paths (fs : FS) : List String → List LogEntry × List String
  | [] => ([], [])
  | p :: rest =>
    let next := validate_file_paths fs rest
    match fs.status p with
    | .checkError e =>
      (⟨.error, "Error validating path " ++ p ++ ": " ++ e⟩ :: next.1, next.2)
    | .absent =>
      (⟨.warning, "Path does not exist: " ++ p⟩ :: next.1, next.2)
    | .notFile =>
      (⟨.warning, "Not a file: " ++ p⟩ :: next.1, next.2)
    | .file =>
      if strEndsWith (pyLower p) ".csv" then
        (next.1, p :: next.2)
      else
        (⟨.warning, "Not a CSV file: " ++ p⟩ :: next.1, next.2)

/-- The spec's tokenization rule, stated independently of the source: split
the string at commas/whitespace and keep the non-empty pieces — "maximal
runs of non-comma, non-whitespace characters". -/
def maximalRuns (l : List Char) : List (List Char) :=
  (l.splitOnP (fun c => !isTokChar c)).filter (fun t => !t.isEmpty)

/-- The `for` loop of `CSVProcessor.read_and_concat_csvs`: per path, a
successful read appends the dataset and logs success, an
`EmptyDataError` logs a warning and skips, any other exception logs an
error and skips.  Returns the emitted log and the collected datasets. -/
def readLoop (fs : FS) : List String → List LogEntry × List Dataset
  | [] => ([], [])
  | p :: rest =>
    let next := readLoop fs rest
    match fs.read p with
    | .success ds =>
      (⟨.info, "Successfully processed: " ++ p⟩ :: next.1, ds :: next.2)
    | .emptyData =>
      (⟨.warning, "Empty file: " ++ p⟩ :: next.1, next.2)
    | .failure e =>
      (⟨.error, "Error processing " ++ p ++ ": " ++ e⟩ :: next.1, next.2)

/-- The datasets of the successfully-read files of a path list, in order
(the value of `dataframes` after the loop of `read_and_concat_csvs`). -/
def successes (fs : FS) (paths : List String) : List Dataset :=
  paths.filterMap (fun p =>
    match fs.read p with
    | .success ds => some ds
    | _ => none)

/-- The number of rows one path contributes to the combined dataset: its
dataset's row count when its read succeeds, zero when it is skipped. -/
def rowsContributed (fs : FS) (p : String) : Nat :=
  match fs.read p with
  | .success ds => ds.rows.length
  | _ => 0

/-- The union of the column lists in order of first appearance (pandas'
column alignment for `pd.concat`). -/
def unionCols (headers : List (List String)) : List String :=
  headers.foldl (fun acc h => acc ++ h.filter (fun c => !acc.contains c)) []

/-- Reindex one row from its own frame's header to the combined column
list: a column absent from the frame yields the empty text cell (NaN as it
serializes). -/
def alignRow (cols hdr row : List String) : List String :=
  cols.map (fun c => ((hdr.zip row).lookup c).getD "")

/-- `pd.concat(dfs, ignore_index=True)`: union the columns by name in order
of first appearance and stack the rows in frame order, each row reindexed
to the combined columns. -/
def concatDatasets (dss : List Dataset) : Dataset :=
  let cols := unionCols (dss.map Dataset.header)
  { header := cols
    rows := dss.flatMap (fun d => d.rows.map (alignRow cols d.header)) }

/-- `CSVProcessor.read_and_concat_csvs`: an empty path list warns and
returns the no-result sentinel; otherwise run the read loop; if no dataset
was collected, warn and return the sentinel, else return the concatenation.
Returns the emitted log and the optional combined dataset. -/
def read_and_concat_csvs (fs : FS) (file_paths : List String) :
    List LogEntry × Option Dataset :=
  if file_paths.isEmpty then
    ([⟨.warning, "No valid files to process"⟩], none)
  else
    let res := readLoop fs file_paths
    if res.2.isEmpty then
      (res.1 ++ [⟨.warning, "No DataFrames were processed"⟩], none)
    else
      (res.1, some (concatDatasets res.2))

/-- `FileWriter.save_dataframe`: join the base path with the filename
(default `aggregated_data.csv`); on write success log and return the path,
on a write exception log the error and re-raise the same exception. -/
def save_dataframe (fs : FS) (dataframe : Dataset) (base_path : String)
    (filename : String := "aggregated_data.csv") :
    List LogEntry × Except String String :=
  let out_file := posixJoin base_path filename
  match fs.writeErr with
  | none =>
    ([⟨.info, "Aggregated data saved to " ++ out_file⟩], .ok out_file)
  | some e =>
    ([⟨.error, "Error saving file: " ++ e⟩], .error e)

/-- `DataAggregator.process` (the base path is `os.getcwd()` captured at
construction): parse, validate, read-and-concat; if a combined dataset
exists, save it and return the path, catching a write exception into a
logged failure and a `none` return; otherwise warn and return `none`. -/
def process (fs : FS) (file_string : String) (base_path : String) :
    List LogEntry × Option String :=
  let file_paths := parse_file_string file_string base_path
  let v := validate_file_paths fs file_paths
  let r := read_and_concat_csvs fs v.2
  match r.2 with
  | some df =>
    match save_dataframe fs df base_path with
    | (ls, .ok out) => (v.1 ++ r.1 ++ ls, some out)
    | (ls, .error e) =>
      (v.1 ++ r.1 ++ ls ++ [⟨.error, "Data aggregation failed: " ++ e⟩], none)
  | none => (v.1 ++ r.1 ++ [⟨.warning, "No data to save"⟩], none)

/-! ## The textual layer of `to_csv` / `read_csv` -/

/-- A field needs CSV quoting when it contains a comma, a quote or a
newline. -/
def needsQuote (f : List Char) : Bool :=
  f.any (fun c => c = ',' || c = '"' || c = '\n')

/-- Double every quote character of a field (the escaping inside a quoted
field). -/
def escapeField : List Char → List Char
  | [] => []
  | c :: cs =>
    if c = '"' then '"' :: '"' :: escapeField cs else c :: escapeField cs

/-- Serialize one field: wrap in quotes with inner quotes doubled when
quoting is needed, else the raw field. -/
def renderField (f : List Char) : List Char :=
  if needsQuote f then '"' :: (escapeField f ++ ['"']) else f

/-- Serialize one row: the fields, comma-separated. -/
def renderRow : List (List Char) → List Char
  | [] => []
  | [f] => renderField f
  | f :: g :: rest => renderField f ++ ',' :: renderRow (g :: rest)

/-- Serialize a list of lines, each terminated by a newline. -/
def renderLines (rows : List (List (List Char))) : List Char :=
  (rows.map (fun r => renderRow r ++ ['\n'])).flatten

/-- `DataFrame.to_csv(..., index=False)` at the textual layer: the header
line then one line per row, no index column. -/
def renderCsv (ds : Dataset) : List Char :=
  renderLines (ds.header.map String.data :: ds.rows.map (fun r => r.map String.data))

/-- Parse the remainder of a quoted field (the opening quote already
consumed): a doubled quote is a literal quote, a single quote closes the
field.  `none` on an unterminated field. -/
def parseQuoted : List Char → Option (List Char × List Char)
  | [] => none
  | c :: cs =>
    if c = '"' then
      match cs with
      | c2 :: cs2 =>
        if c2 = '"' then (parseQuoted cs2).map (fun p => ('"' :: p.1, p.2))
        else some ([], cs)
      | [] => some ([], [])
    else (parseQuoted cs).map (fun p => (c :: p.1, p.2))

/-- A character ending an unquoted field. -/
def unquotedEnd (c : Char) : Bool := c = ',' || c = '\n'

/-- Parse one field: a leading quote opens a quoted field, anything else is
an unquoted field running to the next comma, newline or end of input. -/
def parseField (l : List Char) : Option (List Char × List Char) :=
  match l with
  | [] => some ([], [])
  | c :: cs =>
    if c = '"' then parseQuoted cs
    else
      some (l.takeWhile (fun x => !unquotedEnd x),
            l.dropWhile (fun x => !unquotedEnd x))

/-- Parse one line: fields separated by commas, ended by a newline or the
end of input.  Fuel bounds the number of fields. -/
def parseRow : Nat → List Char → Option (List (List Char) × List Char)
  | 0, _ => none
  | fuel + 1, l =>
    match parseField l with
    | none => none
    | some (f, rest) =>
      match rest with
      | [] => some ([f], [])
      | c :: rest2 =>
        if c = ',' then (parseRow fuel rest2).map (fun p => (f :: p.1, p.2))
        else if c = '\n' then some ([f], rest2)
        else none

/-- Parse all lines of the input.  Fuel bounds the number of lines. -/
def parseRows : Nat → List Char → Option (List (List (List Char)))
  | 0, _ => none
  | fuel + 1, l =>
    if l.isEmpty then some []
    else
      match parseRow (l.length + 1) l with
      | none => none
      | some (r, rest) => (parseRows fuel rest).map (fun rs => r :: rs)

/-- `pd.read_csv` at the textual layer: parse the lines; no lines at all is
the empty-data condition (`none`); otherwise the first line is the header
and the rest are the rows. -/
def read_csv_text (l : List Char) : Option Dataset :=
  match parseRows (l.length + 1) l with
  | none => none
  | some [] => none
  | some (hdr :: rows) =>
    some { header := hdr.map (fun t => String.mk t)
           rows := rows.map (fun r => r.map (fun t => String.mk t)) }

/-! ## Concrete data for witnesses -/

/-- A two-row, one-column dataset (the spec's `a.csv` example). -/
def sampleA : Dataset := ⟨["x"], [["1"], ["2"]]⟩

/-- A one-row, one-column dataset (the spec's `b.csv` example). -/
def sampleB : Dataset := ⟨["x"], [["3"]]⟩

/-- A dataset whose column names and cells contain commas, quotes and
newlines, exercising the CSV quoting rules. -/
def sampleQuoted : Dataset :=
  ⟨["a,b", "c\"d"], [["x\ny", ""], ["", "q\"\"z"]]⟩

/-- A concrete world: `/base/a.csv` and `/base/b.csv` are readable CSV
files, `/base/empty.csv` raises the empty-data condition, `/base/bad.csv`
fails to read, `/base/dir.csv` is a directory, `/base/locked.csv` raises on
the existence check, everything else is absent; writes succeed. -/
def sampleFS : FS where
  status := fun p =>
    if p = "/base/a.csv" ∨ p = "/base/b.csv" ∨ p = "/base/empty.csv" ∨
        p = "/base/bad.csv" ∨ p = "/base/note.txt" then .file
    else if p = "/base/dir.csv" then .notFile
    else if p = "/base/locked.csv" then .checkError "permission denied"
    else .absent
  read := fun p =>
    if p = "/base/a.csv" then .success sampleA
    else if p = "/base/b.csv" then .success sampleB
    else if p = "/base/empty.csv" then .emptyData
    else .failure "parse error"
  writeErr := none

/-- The concrete world with a failing write. -/
def sampleFSBadWrite : FS :=
  { sampleFS with writeErr := some "disk full" }

/-! ## Helper lemmas on the pipeline stages -/

theorem validate_snd_eq_filter (fs : FS) (paths : List String) :
    (validate_file_paths fs paths).2 = paths.filter (passesChecks fs) := by
  induction paths with
  | nil => rfl
  | cons p rest ih =>
    simp only [validate_file_paths, List.filter_cons]
    cases h : fs.status p with
    | checkError e => simp [passesChecks, h, ih]
    | absent => simp [passesChecks, h, ih]
    | notFile => simp [passesChecks, h, ih]
    | file =>
      by_cases hcsv : strEndsWith (pyLower p) ".csv" <;>
        simp [passesChecks, h, hcsv, ih]

theorem validate_append (fs : FS) (a b : List String) :
    validate_file_paths fs (a ++ b) =
      ((validate_file_paths fs a).1 ++ (validate_file_paths fs b).1,
       (validate_file_paths fs a).2 ++ (validate_file_paths fs b).2) := by
  induction a with
  | nil => simp [validate_file_paths]
  | cons p rest ih =>
    simp only [List.cons_append, validate_file_paths]
    cases h : fs.status p with
    | checkError e => simp [ih]
    | absent => simp [ih]
    | notFile => simp [ih]
    | file =>
      by_cases hcsv : strEndsWith (pyLower p) ".csv" <;> simp [hcsv, ih]

theorem readLoop_snd (fs : FS) (paths : List String) :
    (readLoop fs paths).2 = successes fs paths := by
  induction paths with
  | nil => rfl
  | cons p rest ih =>
    simp only [readLoop, successes, List.filterMap_cons]
    cases h : fs.read p <;> simp [h, ih, successes]

theorem readLoop_append (fs : FS) (a b : List String) :
    readLoop fs (a ++ b) =
      ((readLoop fs a).1 ++ (readLoop fs b).1,
       (readLoop fs a).2 ++ (readLoop fs b).2) := by
  induction a with
  | nil => simp [readLoop]
  | cons p rest ih =>
    simp only [List.cons_append, readLoop]
    cases h : fs.read p <;> simp [ih]

theorem successes_append (fs : FS) (a b : List String) :
    successes fs (a ++ b) = successes fs a ++ successes fs b := by
  simp [successes]

theorem concatDatasets_rows_length (dss : List Dataset) :
    (concatDatasets dss).rows.length = (dss.map (fun d => d.rows.length)).sum := by
  simp [concatDatasets, List.length_flatMap, Function.comp_def]

theorem read_and_concat_snd (fs : FS) (paths : List String) :
    (read_and_concat_csvs fs paths).2 =
      if successes fs paths = [] then none
      else some (concatDatasets (successes fs paths)) := by
  unfold read_and_concat_csvs
  cases paths with
  | nil => simp [successes]
  | cons p rest =>
    simp only [List.isEmpty_cons, Bool.false_eq_true, if_false, readLoop_snd]
    by_cases hs : successes fs (p :: rest) = [] <;>
      simp [hs, List.isEmpty_iff]

/-! ## Claim theorems -/

/-- C1: whenever `read_and_concat_csvs` produces a combined dataset, its
row count equals the sum of the row counts of the successfully-read input
files, and its rows are exactly those files' rows (reindexed to the
combined columns) stacked in input-file order, each file's rows in their
own order. -/
theorem reader_merger_row_count_and_order (fs : FS) (paths : List String)
    (logs : List LogEntry) (df : Dataset)
    (h : read_and_concat_csvs fs paths = (logs, some df)) :
    df.rows.length = ((successes fs paths).map (fun d => d.rows.length)).sum ∧
    df.rows = (successes fs paths).flatMap
      (fun d => d.rows.map
        (alignRow (unionCols ((successes fs paths).map Dataset.header)) d.header)) := by
  have h2 : (read_and_concat_csvs fs paths).2 = some df := by rw [h]
  rw [read_and_concat_snd] at h2
  by_cases hs : successes fs paths = []
  · rw [if_pos hs] at h2
    exact absurd h2 (by simp)
  · rw [if_neg hs] at h2
    have hdf : df = concatDatasets (successes fs paths) := by
      exact (Option.some.injEq _ _ ▸ h2).symm
    subst hdf
    exact ⟨concatDatasets_rows_length _, rfl⟩

/-- Witness for C1 at a concrete world: two files with row counts 2 and 1
combine to 3 rows in input order. -/
theorem reader_merger_row_count_and_order_witness :
    (⟨["x"], [["1"], ["2"], ["3"]]⟩ : Dataset).rows.length =
      ((successes sampleFS ["/base/a.csv", "/base/b.csv"]).map
        (fun d => d.rows.length)).sum ∧
    (⟨["x"], [["1"], ["2"], ["3"]]⟩ : Dataset).rows =
      (successes sampleFS ["/base/a.csv", "/base/b.csv"]).flatMap
        (fun d => d.rows.map
          (alignRow (unionCols ((successes sampleFS ["/base/a.csv", "/base/b.csv"]).map
            Dataset.header)) d.header)) :=
  reader_merger_row_count_and_order sampleFS ["/base/a.csv", "/base/b.csv"]
    [⟨.info, "Successfully processed: /base/a.csv"⟩,
     ⟨.info, "Successfully processed: /base/b.csv"⟩]
    ⟨["x"], [["1"], ["2"], ["3"]]⟩ (by decide)

/-- C2: `DataAggregator.process` is a total function (the model of "never
raises"); it returns the output path exactly when at least one dataset was
read from the validated paths and the write succeeded, and `none` in every
other case (no valid files, the empty/no-result combined dataset, or an
exception converted at the orchestrator boundary). -/
theorem process_never_raises_characterization (fs : FS)
    (file_string base_path : String) :
    (process fs file_string base_path).2 =
      if successes fs
          (validate_file_paths fs (parse_file_string file_string base_path)).2 ≠ [] ∧
          fs.writeErr = none
      then some (posixJoin base_path "aggregated_data.csv")
      else none := by
  simp only [process]
  rw [read_and_concat_snd]
  by_cases hs : successes fs
      (validate_file_paths fs (parse_file_string file_string base_path)).2 = []
  · simp [hs]
  · rw [if_neg hs]
    simp only [save_dataframe]
    cases hw : fs.writeErr with
    | none => simp [hs, hw]
    | some e => simp [hs, hw]

/-- C3: the Path Validator returns exactly the order-preserving
subsequence (a `List.filter`) of the candidate paths that pass all three
checks — the path exists, refers to a regular file, and its extension is
`.csv` case-insensitively (`passesChecks`); it includes no failing path and
excludes no passing one. -/
theorem validator_exact_filter (fs : FS) (paths : List String) :
    (validate_file_paths fs paths).2 = paths.filter (passesChecks fs) ∧
    (validate_file_paths fs paths).2.Sublist paths ∧
    (∀ p ∈ (validate_file_paths fs paths).2, passesChecks fs p = true) ∧
    (∀ p ∈ paths, passesChecks fs p = true →
      p ∈ (validate_file_paths fs paths).2) := by
  refine ⟨validate_snd_eq_filter fs paths, ?_, ?_, ?_⟩
  · rw [validate_snd_eq_filter]; exact List.filter_sublist paths
  · intro p hp
    rw [validate_snd_eq_filter] at hp
    exact List.of_mem_filter hp
  · intro p hp hpass
    rw [validate_snd_eq_filter]
    exact List.mem_filter_of_mem hp hpass

/-- C6: when zero datasets are successfully read from the validated paths
(including the empty list), the Reader/Merger returns the no-result
sentinel `none` after logging a warning, and `process` correspondingly
returns no path; no exception is involved. -/
theorem reader_zero_successes_sentinel (fs : FS)
    (file_string base_path : String)
    (h : successes fs
      (validate_file_paths fs (parse_file_string file_string base_path)).2 = []) :
    (read_and_concat_csvs fs
      (validate_file_paths fs (parse_file_string file_string base_path)).2).2 =
        none ∧
    ((⟨.warning, "No valid files to process"⟩ : LogEntry) ∈
        (read_and_concat_csvs fs
          (validate_file_paths fs (parse_file_string file_string base_path)).2).1 ∨
      (⟨.warning, "No DataFrames were processed"⟩ : LogEntry) ∈
        (read_and_concat_csvs fs
          (validate_file_paths fs (parse_file_string file_string base_path)).2).1) ∧
    (process fs file_string base_path).2 = none := by
  refine ⟨?_, ?_, ?_⟩
  · rw [read_and_concat_snd, if_pos h]
  · unfold read_and_concat_csvs
    cases hv : (validate_file_paths fs (parse_file_string file_string base_path)).2 with
    | nil => simp
    | cons p rest =>
      right
      rw [hv] at h
      simp only [List.isEmpty_cons, Bool.false_eq_true, if_false, readLoop_snd, h]
      simp
  · rw [process_never_raises_characterization, if_neg]
    simp [h]

/-- C7: the Table Writer returns the join of the base directory and the
filename (default `aggregated_data.csv`) on success; on a write failure it
logs the error and re-raises the very same exception to its caller rather
than swallowing it. -/
theorem writer_returns_path_or_reraises (fs : FS) (df : Dataset)
    (base_path filename : String) :
    (fs.writeErr = none →
      save_dataframe fs df base_path filename =
        ([⟨.info, "Aggregated data saved to " ++ posixJoin base_path filename⟩],
          .ok (posixJoin base_path filename))) ∧
    (∀ e, fs.writeErr = some e →
      (save_dataframe fs df base_path filename).2 = .error e ∧
      (⟨.error, "Error saving file: " ++ e⟩ : LogEntry) ∈
        (save_dataframe fs df base_path filename).1) ∧
    save_dataframe fs df base_path =
      save_dataframe fs df base_path "aggregated_data.csv" := by
  refine ⟨?_, ?_, rfl⟩
  · intro h; simp [save_dataframe, h]
  · intro e h; simp [save_dataframe, h]

/-- Witness for C7 at a concrete world: a successful write returns
`/base/aggregated_data.csv`; a failing write re-raises `disk full`. -/
theorem writer_returns_path_or_reraises_witness :
    save_dataframe sampleFS sampleA "/base" "aggregated_data.csv" =
      ([⟨.info, "Aggregated data saved to /base/aggregated_data.csv"⟩],
        .ok "/base/aggregated_data.csv") ∧
    (save_dataframe sampleFSBadWrite sampleA "/base" "aggregated_data.csv").2 =
      .error "disk full" :=
  ⟨by
    have h := (writer_returns_path_or_reraises sampleFS sampleA "/base"
      "aggregated_data.csv").1 (by decide)
    have hp : posixJoin "/base" "aggregated_data.csv" =
        "/base/aggregated_data.csv" := by decide
    rw [hp] at h
    exact h,
   ((writer_returns_path_or_reraises sampleFSBadWrite sampleA "/base"
      "aggregated_data.csv").2.1 "disk full" (by decide)).1⟩

theorem splitOnP_cons_of_ne_nil {p : Char → Bool} (l : List Char) :
    ∃ t ts, l.splitOnP p = t :: ts := by
  cases h : l.splitOnP p with
  | nil => exact absurd h (List.splitOnP_ne_nil p l)
  | cons t ts => exact ⟨t, ts, rfl⟩

theorem findTokensAux_spec (l : List Char) : ∀ acc : List Char,
    findTokensAux l acc =
      ((acc.reverse ++ (l.splitOnP (fun c => !isTokChar c)).headI) ::
        (l.splitOnP (fun c => !isTokChar c)).tail).filter
          (fun t => !t.isEmpty) := by
  induction l with
  | nil =>
    intro acc
    by_cases h : acc = []
    · subst h; simp [findTokensAux]
    · simp [findTokensAux, h, List.filter_cons, List.isEmpty_iff]
  | cons c rest ih =>
    intro acc
    obtain ⟨t₀, ts, hsp⟩ :=
      splitOnP_cons_of_ne_nil (p := fun c => !isTokChar c) rest
    by_cases hc : isTokChar c
    · rw [show findTokensAux (c :: rest) acc = findTokensAux rest (c :: acc)
        from by simp [findTokensAux, hc]]
      rw [ih (c :: acc), List.splitOnP_cons, if_neg (by simp [hc]), hsp]
      simp
    · rw [List.splitOnP_cons, if_pos (by simp [hc]), hsp]
      by_cases ha : acc = []
      · subst ha
        rw [show findTokensAux (c :: rest) [] = findTokensAux rest []
          from by simp [findTokensAux, hc]]
        rw [ih [], hsp]
        simp [List.filter_cons]
      · rw [show findTokensAux (c :: rest) acc =
            acc.reverse :: findTokensAux rest []
          from by simp [findTokensAux, hc, ha, List.isEmpty_iff]]
        rw [ih [], hsp]
        simp [List.filter_cons, List.isEmpty_iff, ha]

theorem findTokens_eq_maximalRuns (l : List Char) :
    findTokens l = maximalRuns l := by
  obtain ⟨t₀, ts, hsp⟩ :=
    splitOnP_cons_of_ne_nil (p := fun c => !isTokChar c) l
  rw [findTokens, findTokensAux_spec l [], maximalRuns, hsp]
  simp

theorem findTokensAux_mem_tokChar :
    ∀ l acc, (∀ c ∈ acc, isTokChar c) →
      ∀ t ∈ findTokensAux l acc, ∀ c ∈ t, isTokChar c := by
  intro l
  induction l with
  | nil =>
    intro acc hacc t ht c hc
    by_cases h : acc = []
    · simp [findTokensAux, h] at ht
    · rw [show findTokensAux [] acc = [acc.reverse]
        from by simp [findTokensAux, List.isEmpty_iff, h]] at ht
      rw [List.mem_singleton] at ht
      subst ht
      exact hacc c (List.mem_reverse.mp hc)
  | cons d rest ih =>
    intro acc hacc t ht
    by_cases hd : isTokChar d
    · rw [show findTokensAux (d :: rest) acc = findTokensAux rest (d :: acc)
        from by simp [findTokensAux, hd]] at ht
      refine ih (d :: acc) ?_ t ht
      intro c hc
      rcases List.mem_cons.mp hc with h | h
      · subst h; exact hd
      · exact hacc c h
    · by_cases ha : acc = []
      · subst ha
        rw [show findTokensAux (d :: rest) [] = findTokensAux rest []
          from by simp [findTokensAux, hd]] at ht
        exact ih [] (by simp) t ht
      · rw [show findTokensAux (d :: rest) acc =
            acc.reverse :: findTokensAux rest []
          from by simp [findTokensAux, hd, ha, List.isEmpty_iff]] at ht
        rcases List.mem_cons.mp ht with h | h
        · subst h
          exact fun c hc => hacc c (List.mem_reverse.mp hc)
        · exact ih [] (by simp) t h

theorem findTokens_tokChar (l : List Char) :
    ∀ t ∈ findTokens l, ∀ c ∈ t, isTokChar c :=
  findTokensAux_mem_tokChar l [] (by simp)

theorem dropWhile_eq_self_of_none {α : Type} (p : α → Bool) (l : List α)
    (h : ∀ c ∈ l, p c = false) : l.dropWhile p = l := by
  cases l with
  | nil => rfl
  | cons a rest =>
    rw [List.dropWhile_cons, if_neg]
    simp [h a (List.mem_cons_self a rest)]

theorem pyStrip_eq_of_tokChar (tok : List Char)
    (h : ∀ c ∈ tok, isTokChar c) :
    pyStrip (String.mk tok) = String.mk tok := by
  have hws : ∀ c ∈ tok, c.isWhitespace = false := by
    intro c hc
    have := h c hc
    simp [isTokChar] at this
    exact this.2
  unfold pyStrip
  rw [show (String.mk tok).data = tok from rfl]
  rw [dropWhile_eq_self_of_none _ _ hws,
    dropWhile_eq_self_of_none _ _
      (fun c hc => hws c (List.mem_reverse.mp hc)),
    List.reverse_reverse]

/-- C4: the Input Parser returns exactly the maximal runs of non-comma,
non-whitespace characters of the input string (`maximalRuns`, the spec's
tokenization rule stated via `List.splitOnP`), in input order, each joined
to the base directory with `os.path.join`; a string with no such run yields
the empty list.  The function inspects no filesystem state. -/
theorem parser_exact_maximal_runs (file_string base_path : String) :
    parse_file_string file_string base_path =
      (maximalRuns file_string.data).map
        (fun t => posixJoin base_path (String.mk t)) := by
  unfold parse_file_string
  rw [← findTokens_eq_maximalRuns]
  exact List.map_congr_left (fun t ht => by
    rw [pyStrip_eq_of_tokChar t (findTokens_tokChar _ t ht)])

theorem mem_read_and_concat_logs (fs : FS) (paths : List String)
    (entry : LogEntry) (hne : paths ≠ [])
    (h : entry ∈ (readLoop fs paths).1) :
    entry ∈ (read_and_concat_csvs fs paths).1 := by
  unfold read_and_concat_csvs
  rw [if_neg (by simp [List.isEmpty_iff, hne])]
  by_cases hz : (readLoop fs paths).2.isEmpty
  · rw [if_pos hz]
    exact List.mem_append_left _ h
  · rw [if_neg hz]
    exact h

/-- C5: in the Reader/Merger, a file raising the empty-data condition is
skipped with a logged warning, any other read failure is logged as an error
and skipped, and in both cases the file contributes no rows and the batch
continues: the result equals the result over the remaining files. -/
theorem reader_skips_empty_and_failed (fs : FS) (pre post : List String)
    (p : String) :
    (fs.read p = .emptyData →
      (⟨.warning, "Empty file: " ++ p⟩ : LogEntry) ∈
        (read_and_concat_csvs fs (pre ++ p :: post)).1) ∧
    (∀ e, fs.read p = .failure e →
      (⟨.error, "Error processing " ++ p ++ ": " ++ e⟩ : LogEntry) ∈
        (read_and_concat_csvs fs (pre ++ p :: post)).1) ∧
    ((fs.read p = .emptyData ∨ ∃ e, fs.read p = .failure e) →
      (read_and_concat_csvs fs (pre ++ p :: post)).2 =
        (read_and_concat_csvs fs (pre ++ post)).2) := by
  refine ⟨?_, ?_, ?_⟩
  · intro h
    refine mem_read_and_concat_logs fs _ _ (by simp) ?_
    rw [readLoop_append]
    refine List.mem_append_right _ ?_
    simp [readLoop, h]
  · intro e h
    refine mem_read_and_concat_logs fs _ _ (by simp) ?_
    rw [readLoop_append]
    refine List.mem_append_right _ ?_
    simp [readLoop, h]
  · intro h
    have hsucc : successes fs (pre ++ p :: post) = successes fs (pre ++ post) := by
      rw [successes_append, successes_append]
      rcases h with h | ⟨e, h⟩ <;> simp [successes, h]
    rw [read_and_concat_snd, read_and_concat_snd, hsucc]

/-- Witness for C5 at a concrete world: the empty-data file between two
good files is warned about and contributes nothing; the result equals the
run without it. -/
theorem reader_skips_empty_and_failed_witness :
    (⟨.warning, "Empty file: /base/empty.csv"⟩ : LogEntry) ∈
      (read_and_concat_csvs sampleFS
        ["/base/a.csv", "/base/empty.csv", "/base/b.csv"]).1 ∧
    (read_and_concat_csvs sampleFS
        ["/base/a.csv", "/base/empty.csv", "/base/b.csv"]).2 =
      (read_and_concat_csvs sampleFS ["/base/a.csv", "/base/b.csv"]).2 := by
  have h := reader_skips_empty_and_failed sampleFS ["/base/a.csv"]
    ["/base/b.csv"] "/base/empty.csv"
  exact ⟨h.1 (by decide), h.2.2 (Or.inl (by decide))⟩

/-- C8: validation of one path never aborts the Validator: a path failing
a check, or whose check raises, is dropped (the kept paths equal those of
the list without it) with the reason logged — an error entry for a raising
check, a warning naming the reason otherwise — and the remaining paths are
still validated. -/
theorem validator_never_aborts (fs : FS) (pre post : List String)
    (p : String) :
    (passesChecks fs p = false →
      (validate_file_paths fs (pre ++ p :: post)).2 =
        (validate_file_paths fs (pre ++ post)).2) ∧
    (∀ e, fs.status p = .checkError e →
      (⟨.error, "Error validating path " ++ p ++ ": " ++ e⟩ : LogEntry) ∈
        (validate_file_paths fs (pre ++ p :: post)).1) ∧
    (fs.status p = .absent →
      (⟨.warning, "Path does not exist: " ++ p⟩ : LogEntry) ∈
        (validate_file_paths fs (pre ++ p :: post)).1) ∧
    (fs.status p = .notFile →
      (⟨.warning, "Not a file: " ++ p⟩ : LogEntry) ∈
        (validate_file_paths fs (pre ++ p :: post)).1) ∧
    (fs.status p = .file → strEndsWith (pyLower p) ".csv" = false →
      (⟨.warning, "Not a CSV file: " ++ p⟩ : LogEntry) ∈
        (validate_file_paths fs (pre ++ p :: post)).1) := by
  refine ⟨?_, ?_, ?_, ?_, ?_⟩
  · intro h
    rw [validate_snd_eq_filter, validate_snd_eq_filter,
      List.filter_append, List.filter_append, List.filter_cons, h]
    simp
  · intro e h
    rw [validate_append]
    refine List.mem_append_right _ ?_
    simp [validate_file_paths, h]
  · intro h
    rw [validate_append]
    refine List.mem_append_right _ ?_
    simp [validate_file_paths, h]
  · intro h
    rw [validate_append]
    refine List.mem_append_right _ ?_
    simp [validate_file_paths, h]
  · intro h hcsv
    rw [validate_append]
    refine List.mem_append_right _ ?_
    simp [validate_file_paths, h, hcsv]

/-- Witness for C8 at a concrete world: the path whose existence check
raises a permission error is dropped with a logged error, and the other
paths are still validated. -/
theorem validator_never_aborts_witness :
    (validate_file_paths sampleFS
        ["/base/a.csv", "/base/locked.csv", "/base/b.csv"]).2 =
      (validate_file_paths sampleFS ["/base/a.csv", "/base/b.csv"]).2 ∧
    (⟨.error, "Error validating path /base/locked.csv: permission denied"⟩ :
        LogEntry) ∈
      (validate_file_paths sampleFS
        ["/base/a.csv", "/base/locked.csv", "/base/b.csv"]).1 := by
  have h := validator_never_aborts sampleFS ["/base/a.csv"] ["/base/b.csv"]
    "/base/locked.csv"
  exact ⟨h.1 (by decide), h.2.1 "permission denied" (by decide)⟩

theorem successes_rowsum (fs : FS) (l : List String) :
    ((successes fs l).map (fun d => d.rows.length)).sum =
      (l.map (rowsContributed fs)).sum := by
  induction l with
  | nil => rfl
  | cons q rest ih =>
    simp only [successes, List.filterMap_cons, List.map_cons, List.sum_cons,
      rowsContributed]
    cases h : fs.read q with
    | success ds =>
      simp only [List.map_cons, List.sum_cons]
      rw [show (rest.filterMap fun p =>
          match fs.read p with
          | ReadResult.success ds => some ds
          | x => none) = successes fs rest from rfl, ih]
    | emptyData =>
      rw [show (rest.filterMap fun p =>
          match fs.read p with
          | ReadResult.success ds => some ds
          | x => none) = successes fs rest from rfl, ih]
      simp
    | failure e =>
      rw [show (rest.filterMap fun p =>
          match fs.read p with
          | ReadResult.success ds => some ds
          | x => none) = successes fs rest from rfl, ih]
      simp

theorem sum_map_count_decompose (l : List String) (f : String → Nat)
    (p : String) :
    (l.map f).sum =
      l.count p * f p + ((l.filter (fun q => q ≠ p)).map f).sum := by
  induction l with
  | nil => simp
  | cons a rest ih =>
    by_cases ha : a = p
    · subst ha
      rw [List.map_cons, List.sum_cons, ih, List.count_cons_self,
        List.filter_cons_of_neg]
      · ring
      · simp
    · rw [List.map_cons, List.sum_cons, ih,
        List.count_cons_of_ne (fun hh => ha hh.symm),
        List.filter_cons_of_pos, List.map_cons, List.sum_cons]
      · ring
      · simp [ha]

/-- C10: no stage deduplicates paths: for every candidate list, a valid,
readable path occurs in the Validator's output as many times as in the
input, and whenever the Reader/Merger produces a combined dataset from the
validated list, that file's rows appear once per occurrence: the row count
is the occurrence count times the file's row count, plus the rows
contributed by the other validated paths. -/
theorem no_deduplication (fs : FS) (p : String) (ds : Dataset)
    (hpass : passesChecks fs p = true)
    (hread : fs.read p = .success ds) :
    ∀ paths : List String,
      (validate_file_paths fs paths).2.count p = paths.count p ∧
      ∀ logs df,
        read_and_concat_csvs fs (validate_file_paths fs paths).2 =
          (logs, some df) →
        df.rows.length =
          paths.count p * ds.rows.length +
            (((validate_file_paths fs paths).2.filter (fun q => q ≠ p)).map
              (rowsContributed fs)).sum := by
  intro paths
  have hcount : (validate_file_paths fs paths).2.count p = paths.count p := by
    rw [validate_snd_eq_filter]
    exact List.count_filter hpass
  refine ⟨hcount, ?_⟩
  intro logs df h
  have h2 : (read_and_concat_csvs fs (validate_file_paths fs paths).2).2 =
      some df := by rw [h]
  rw [read_and_concat_snd] at h2
  by_cases hs : successes fs (validate_file_paths fs paths).2 = []
  · rw [if_pos hs] at h2
    exact absurd h2 (by simp)
  · rw [if_neg hs] at h2
    have hdf : df = concatDatasets (successes fs (validate_file_paths fs paths).2) :=
      (Option.some.injEq _ _ ▸ h2).symm
    subst hdf
    rw [concatDatasets_rows_length, successes_rowsum,
      sum_map_count_decompose _ (rowsContributed fs) p, hcount,
      show rowsContributed fs p = ds.rows.length from by
        simp [rowsContributed, hread]]

/-- Witness for C10 at a concrete world: `/base/a.csv` occurs twice among
four tokens (with another readable file and a missing one interleaved);
validation keeps both occurrences and the combined dataset holds its two
rows twice plus `/base/b.csv`'s one row. -/
theorem no_deduplication_witness :
    (validate_file_paths sampleFS
        ["/base/a.csv", "/base/b.csv", "/base/a.csv", "/base/missing.csv"]).2.count
        "/base/a.csv" =
      (["/base/a.csv", "/base/b.csv", "/base/a.csv", "/base/missing.csv"] :
        List String).count "/base/a.csv" ∧
    (⟨["x"], [["1"], ["2"], ["3"], ["1"], ["2"]]⟩ : Dataset).rows.length =
      (["/base/a.csv", "/base/b.csv", "/base/a.csv", "/base/missing.csv"] :
          List String).count "/base/a.csv" * sampleA.rows.length +
        (((validate_file_paths sampleFS
            ["/base/a.csv", "/base/b.csv", "/base/a.csv",
             "/base/missing.csv"]).2.filter
              (fun q => q ≠ "/base/a.csv")).map
          (rowsContributed sampleFS)).sum := by
  have h := no_deduplication sampleFS "/base/a.csv" sampleA
    (by decide) (by decide)
    ["/base/a.csv", "/base/b.csv", "/base/a.csv", "/base/missing.csv"]
  exact ⟨h.1,
    h.2 [⟨.info, "Successfully processed: /base/a.csv"⟩,
         ⟨.info, "Successfully processed: /base/b.csv"⟩,
         ⟨.info, "Successfully processed: /base/a.csv"⟩]
      ⟨["x"], [["1"], ["2"], ["3"], ["1"], ["2"]]⟩ (by decide)⟩

/-- Witness for C6 at a concrete world: every token of the invocation
string is empty, unreadable or missing, so the Reader/Merger returns the
sentinel with a warning and `process` returns no path. -/
theorem reader_zero_successes_sentinel_witness :
    (read_and_concat_csvs sampleFS
      (validate_file_paths sampleFS
        (parse_file_string "empty.csv bad.csv missing.csv" "/base")).2).2 =
        none ∧
    ((⟨.warning, "No valid files to process"⟩ : LogEntry) ∈
        (read_and_concat_csvs sampleFS
          (validate_file_paths sampleFS
            (parse_file_string "empty.csv bad.csv missing.csv" "/base")).2).1 ∨
      (⟨.warning, "No DataFrames were processed"⟩ : LogEntry) ∈
        (read_and_concat_csvs sampleFS
          (validate_file_paths sampleFS
            (parse_file_string "empty.csv bad.csv missing.csv" "/base")).2).1) ∧
    (process sampleFS "empty.csv bad.csv missing.csv" "/base").2 = none :=
  reader_zero_successes_sentinel sampleFS "empty.csv bad.csv missing.csv"
    "/base" (by decide)

/-! ## Round-trip lemmas for the textual CSV layer -/

theorem parseQuoted_quote_quote (cs : List Char) :
    parseQuoted ('"' :: '"' :: cs) =
      (parseQuoted cs).map (fun p => ('"' :: p.1, p.2)) := by
  rw [parseQuoted.eq_def]
  simp

theorem parseQuoted_quote_close (c2 : Char) (cs2 : List Char)
    (hc : c2 ≠ '"') :
    parseQuoted ('"' :: c2 :: cs2) = some ([], c2 :: cs2) := by
  rw [parseQuoted.eq_def]
  simp [hc]

theorem parseQuoted_cons_ne (c : Char) (cs : List Char) (hc : c ≠ '"') :
    parseQuoted (c :: cs) =
      (parseQuoted cs).map (fun p => (c :: p.1, p.2)) := by
  rw [parseQuoted.eq_def]
  simp [hc]

theorem parseField_quote (cs : List Char) :
    parseField ('"' :: cs) = parseQuoted cs := by
  rw [parseField.eq_def]
  simp

theorem parseField_cons_ne (c : Char) (cs : List Char) (hc : c ≠ '"') :
    parseField (c :: cs) =
      some ((c :: cs).takeWhile (fun x => !unquotedEnd x),
            (c :: cs).dropWhile (fun x => !unquotedEnd x)) := by
  rw [parseField.eq_def]
  simp [hc]

theorem parseQuoted_escape (f : List Char) : ∀ r : List Char,
    (∀ c, r.head? = some c → c ≠ '"') →
    parseQuoted (escapeField f ++ '"' :: r) = some (f, r) := by
  induction f with
  | nil =>
    intro r hr
    rw [show escapeField [] = [] from rfl, List.nil_append]
    cases r with
    | nil => rfl
    | cons c2 cs2 =>
      exact parseQuoted_quote_close c2 cs2 (hr c2 rfl)
  | cons c f' ih =>
    intro r hr
    by_cases hc : c = '"'
    · subst hc
      rw [show escapeField ('"' :: f') = '"' :: '"' :: escapeField f' from by
        simp [escapeField]]
      rw [List.cons_append, List.cons_append, parseQuoted_quote_quote,
        ih r hr]
      rfl
    · rw [show escapeField (c :: f') = c :: escapeField f' from by
        simp [escapeField, hc]]
      rw [List.cons_append, parseQuoted_cons_ne c _ hc, ih r hr]
      rfl

theorem takeWhile_append_all {α : Type} (p : α → Bool) (f r : List α)
    (hf : ∀ a ∈ f, p a = true) :
    (f ++ r).takeWhile p = f ++ r.takeWhile p := by
  induction f with
  | nil => simp
  | cons a f' ih =>
    rw [List.cons_append, List.takeWhile_cons,
      if_pos (hf a (List.mem_cons_self a f')),
      ih (fun x hx => hf x (List.mem_cons_of_mem a hx)), List.cons_append]

theorem dropWhile_append_all {α : Type} (p : α → Bool) (f r : List α)
    (hf : ∀ a ∈ f, p a = true) :
    (f ++ r).dropWhile p = r.dropWhile p := by
  induction f with
  | nil => simp
  | cons a f' ih =>
    rw [List.cons_append, List.dropWhile_cons,
      if_pos (hf a (List.mem_cons_self a f')),
      ih (fun x hx => hf x (List.mem_cons_of_mem a hx))]

theorem parseField_render (f r : List Char)
    (hr : r = [] ∨ ∃ c rest, r = c :: rest ∧ unquotedEnd c = true) :
    parseField (renderField f ++ r) = some (f, r) := by
  have hrq : ∀ c, r.head? = some c → c ≠ '"' := by
    intro c hc hq
    rcases hr with h | ⟨c', rest, h, hend⟩
    · subst h; simp at hc
    · subst h
      simp at hc
      subst hc
      subst hq
      simp [unquotedEnd] at hend
  have hrtake : r.takeWhile (fun x => !unquotedEnd x) = [] := by
    rcases hr with h | ⟨c, rest, h, hend⟩
    · subst h; rfl
    · subst h; simp [List.takeWhile_cons, hend]
  have hrdrop : r.dropWhile (fun x => !unquotedEnd x) = r := by
    rcases hr with h | ⟨c, rest, h, hend⟩
    · subst h; rfl
    · subst h; simp [List.dropWhile_cons, hend]
  unfold renderField
  by_cases hq : needsQuote f
  · rw [if_pos hq]
    rw [show ('"' :: (escapeField f ++ ['"'])) ++ r =
        '"' :: (escapeField f ++ '"' :: r) from by simp]
    rw [parseField_quote]
    exact parseQuoted_escape f r hrq
  · rw [if_neg hq]
    have hchars : ∀ a ∈ f, ¬a = ',' ∧ ¬a = '"' ∧ ¬a = '\n' := by
      intro a ha
      have hq2 : ¬needsQuote f = true := hq
      rw [needsQuote, List.any_eq_true] at hq2
      push_neg at hq2
      have h2 := hq2 a ha
      simp only [ne_eq, Bool.or_eq_true, decide_eq_true_eq, not_or] at h2
      exact ⟨h2.1.1, h2.1.2, h2.2⟩
    have hf : ∀ a ∈ f, (!unquotedEnd a) = true := by
      intro a ha
      obtain ⟨h1, _, h3⟩ := hchars a ha
      simp [unquotedEnd, h1, h3]
    cases f with
    | nil =>
      rw [List.nil_append]
      rcases hr with h | ⟨c, rest, h, hend⟩
      · subst h; rfl
      · subst h
        rw [parseField_cons_ne c rest (hrq c (by simp))]
        rw [show (c :: rest).takeWhile (fun x => !unquotedEnd x) = [] from by
          simp [List.takeWhile_cons, hend]]
        rw [show (c :: rest).dropWhile (fun x => !unquotedEnd x) = c :: rest
          from by simp [List.dropWhile_cons, hend]]
    | cons a f' =>
      have ha : ¬a = '"' := (hchars a (List.mem_cons_self a f')).2.1
      rw [List.cons_append, parseField_cons_ne a _ ha, ← List.cons_append]
      rw [takeWhile_append_all _ _ _ hf, dropWhile_append_all _ _ _ hf,
        hrtake, hrdrop, List.append_nil]

theorem parseRow_succ (fuel : Nat) (l : List Char) :
    parseRow (fuel + 1) l =
      match parseField l with
      | none => none
      | some (f, rest) =>
        match rest with
        | [] => some ([f], [])
        | c :: rest2 =>
          if c = ',' then (parseRow fuel rest2).map (fun p => (f :: p.1, p.2))
          else if c = '\n' then some ([f], rest2)
          else none := rfl

theorem parseRows_succ (fuel : Nat) (l : List Char) :
    parseRows (fuel + 1) l =
      if l.isEmpty then some []
      else
        match parseRow (l.length + 1) l with
        | none => none
        | some (r, rest) => (parseRows fuel rest).map (fun rs => r :: rs) :=
  rfl

theorem length_le_renderRow_succ (row : List (List Char)) :
    row.length ≤ (renderRow row).length + 1 := by
  induction row with
  | nil => simp
  | cons f rest ih =>
    cases rest with
    | nil => simp [renderRow]
    | cons g rest' =>
      rw [show renderRow (f :: g :: rest') =
          renderField f ++ ',' :: renderRow (g :: rest') from rfl]
      simp only [List.length_cons, List.length_append] at ih ⊢
      omega

theorem parseRow_render (row : List (List Char)) :
    ∀ (r : List Char) (fuel : Nat), row ≠ [] → row.length ≤ fuel →
      parseRow fuel (renderRow row ++ '\n' :: r) = some (row, r) := by
  induction row with
  | nil => intro r fuel h _; exact absurd rfl h
  | cons f rest ih =>
    intro r fuel _ hfuel
    cases fuel with
    | zero => simp at hfuel
    | succ fuel =>
      cases rest with
      | nil =>
        rw [show renderRow [f] = renderField f from rfl, parseRow_succ,
          parseField_render f ('\n' :: r)
            (Or.inr ⟨'\n', r, rfl, by decide⟩)]
        simp
      | cons g rest' =>
        rw [show renderRow (f :: g :: rest') =
            renderField f ++ ',' :: renderRow (g :: rest') from rfl]
        rw [show (renderField f ++ ',' :: renderRow (g :: rest')) ++ '\n' :: r =
            renderField f ++ ',' :: (renderRow (g :: rest') ++ '\n' :: r)
          from by simp]
        rw [parseRow_succ,
          parseField_render f (',' :: (renderRow (g :: rest') ++ '\n' :: r))
            (Or.inr ⟨',', _, rfl, by decide⟩)]
        have hrec := ih r fuel (by simp)
          (by simpa using Nat.le_of_succ_le_succ hfuel)
        simp [hrec]

theorem length_le_renderLines (rows : List (List (List Char))) :
    rows.length ≤ (renderLines rows).length := by
  induction rows with
  | nil => simp [renderLines]
  | cons row rest ih =>
    rw [show renderLines (row :: rest) =
        (renderRow row ++ ['\n']) ++ renderLines rest from by simp [renderLines]]
    simp only [List.length_cons, List.length_append, List.length_singleton]
    omega

theorem parseRows_render (rows : List (List (List Char))) :
    ∀ fuel, (∀ row ∈ rows, row ≠ []) → rows.length < fuel →
      parseRows fuel (renderLines rows) = some rows := by
  induction rows with
  | nil =>
    intro fuel _ hf
    cases fuel with
    | zero => omega
    | succ n => rfl
  | cons row rest ih =>
    intro fuel hne hf
    cases fuel with
    | zero => omega
    | succ fuel =>
      have hE : renderLines (row :: rest) =
          renderRow row ++ '\n' :: renderLines rest := by
        simp [renderLines]
      rw [hE, parseRows_succ,
        if_neg (by simp [List.isEmpty_iff])]
      have hfr : row.length ≤ (renderRow row ++ '\n' :: renderLines rest).length + 1 := by
        have h1 := length_le_renderRow_succ row
        simp only [List.length_append, List.length_cons]
        omega
      rw [parseRow_render row (renderLines rest) _
        (hne row (List.mem_cons_self row rest)) hfr]
      have hrec := ih fuel (fun x hx => hne x (List.mem_cons_of_mem row hx))
        (by simpa using Nat.lt_of_succ_lt_succ hf)
      simp [hrec]

/-- C9: writing any well-formed CombinedDataset (at least one column, rows
aligned to the header) with the Table Writer's serialization and re-reading
the bytes with the Reader's parser returns the dataset exactly: same
columns, same row count, same cell values.  The textual layer is exact, so
the claim's "modulo type coercion" caveat is not even needed here. -/
theorem writer_reader_round_trip (ds : Dataset)
    (hheader : ds.header ≠ [])
    (hrows : ∀ r ∈ ds.rows, r.length = ds.header.length) :
    read_csv_text (renderCsv ds) = some ds := by
  have hne : ∀ row ∈ (ds.header.map String.data ::
      ds.rows.map (fun r => r.map String.data)), row ≠ [] := by
    intro row hrow
    rcases List.mem_cons.mp hrow with h | h
    · subst h
      simpa using hheader
    · obtain ⟨r, hr, rfl⟩ := List.mem_map.mp h
      have hlen := hrows r hr
      intro hcon
      rw [List.map_eq_nil_iff] at hcon
      subst hcon
      simp at hlen
      exact hheader (List.length_eq_zero.mp hlen.symm)
  unfold read_csv_text renderCsv
  rw [parseRows_render _ _ hne
    (Nat.lt_succ_of_le (length_le_renderLines _))]
  have hid : ∀ s : String, String.mk s.data = s := fun s => rfl
  simp [List.map_map, Function.comp_def, hid]

/-- Witness for C9: a dataset whose column names and cells contain commas,
quotes, newlines and empty fields survives the write/read round trip
exactly. -/
theorem writer_reader_round_trip_witness :
    read_csv_text (renderCsv sampleQuoted) = some sampleQuoted :=
  writer_reader_round_trip sampleQuoted (by decide) (by decide)

/-- Witness for C3 at a concrete world: among six candidates exactly the
two readable `.csv` files survive, in order, and a passing member is
retained. -/
theorem validator_exact_filter_witness :
    (validate_file_paths sampleFS
        ["/base/a.csv", "/base/missing.csv", "/base/dir.csv",
         "/base/note.txt", "/base/locked.csv", "/base/b.csv"]).2 =
      ["/base/a.csv", "/base/b.csv"] ∧
    "/base/b.csv" ∈ (validate_file_paths sampleFS
        ["/base/a.csv", "/base/missing.csv", "/base/dir.csv",
         "/base/note.txt", "/base/locked.csv", "/base/b.csv"]).2 := by
  have h := validator_exact_filter sampleFS
    ["/base/a.csv", "/base/missing.csv", "/base/dir.csv",
     "/base/note.txt", "/base/locked.csv", "/base/b.csv"]
  constructor
  · rw [h.1]
    decide
  · exact h.2.2.2 "/base/b.csv" (by decide) (by decide)
